import Mathlib

/-!
Shallow embedding of the versatiles container reader, the compression
negotiator and the vector-tile property-rewrite pipeline operation,
together with proofs about the claims of the specification.

Sources embedded:
- src/versatiles_core/src/utils/compression.rs (optimize_compression)
- src/src/container/versatiles/reader.rs (VersaTilesReader: get_tile_data,
  get_block_tile_index, get_bbox_tile_stream)
- src/versatiles_pipeline/src/operations/transform/vectortiles_update_properties.rs
  (Operation::build)

Helper data types (TileBBox, TileCoord, ByteRange, BlockDefinition,
TileIndex) are declared in the repository but their defining modules are
not part of the provided sources; they are modelled from the
specification, as marked on each definition.
-/

namespace Versatiles

/-- A Blob is an owned byte buffer; bytes are modelled as naturals. -/
abbrev Blob := List Nat

/-- TileCompression enumeration: Uncompressed, Gzip, Brotli. -/
inductive TileCompression where
  | uncompressed
  | gzip
  | brotli
deriving DecidableEq

/-- TileFormat enumeration (only the constructors the claims need are
distinguished; the rest are faithful to the enumeration in the spec). -/
inductive TileFormat where
  | pbf
  | png
  | jpg
  | webp
  | avif
  | bin
  | geojson
  | svg
  | topojson
  | json
deriving DecidableEq

/-- Error values. Panics (Rust `assert!`/`unwrap`) are kept distinct
from typed error results propagated through `Result`. -/
inductive Err where
  | panicked (msg : String)
  | io (msg : String)
  | message (msg : String)
  | missingCsvKey (key : String)
  | coordOutOfRange
deriving DecidableEq

/-- The set of acceptable codecs, an EnumSet over the three codecs. -/
structure CompressionSet where
  uncompressed : Bool
  gzip : Bool
  brotli : Bool
deriving DecidableEq

/-- Membership test of EnumSet. -/
def CompressionSet.contains (s : CompressionSet) : TileCompression → Bool
  | .uncompressed => s.uncompressed
  | .gzip => s.gzip
  | .brotli => s.brotli

/-- Emptiness test of EnumSet. -/
def CompressionSet.isEmpty (s : CompressionSet) : Bool :=
  !(s.uncompressed || s.gzip || s.brotli)

/-- TargetCompression from compression.rs: the acceptable codec set plus
the best_compression flag. -/
structure TargetCompression where
  compressions : CompressionSet
  best_compression : Bool
deriving DecidableEq

/-- optimize_compression from compression.rs lines 43-92, parameterized
over the four codec functions, which in the source are fallible wrappers
around the external flate2 and brotli crates; they are taken here as
arbitrary functions returning a Result, and every codec error propagates
exactly where the source applies the question-mark operator. -/
def optimize_compression
    (compress_gzip decompress_gzip compress_brotli decompress_brotli :
      Blob → Except Err Blob)
    (blob : Blob) (input : TileCompression) (target : TargetCompression) :
    Except Err (Blob × TileCompression) :=
  if target.compressions.isEmpty then
    .error (Err.message ("no compression allowed"))
  else if !target.best_compression && target.compressions.contains input then
    .ok (blob, input)
  else
    match input with
    | .uncompressed =>
      if target.compressions.contains .brotli then
        match compress_brotli blob with
        | .error e => .error e
        | .ok b => .ok (b, .brotli)
      else if target.compressions.contains .gzip then
        match compress_gzip blob with
        | .error e => .error e
        | .ok b => .ok (b, .gzip)
      else
        .ok (blob, .uncompressed)
    | .gzip =>
      if target.compressions.contains .brotli then
        match decompress_gzip blob with
        | .error e => .error e
        | .ok d =>
          match compress_brotli d with
          | .error e => .error e
          | .ok b => .ok (b, .brotli)
      else if target.compressions.contains .gzip then
        .ok (blob, .gzip)
      else
        match decompress_gzip blob with
        | .error e => .error e
        | .ok d => .ok (d, .uncompressed)
    | .brotli =>
      if target.compressions.contains .brotli then
        .ok (blob, .brotli)
      else
        match decompress_brotli blob with
        | .error e => .error e
        | .ok data =>
          if target.compressions.contains .gzip then
            match compress_gzip data with
            | .error e => .error e
            | .ok b => .ok (b, .gzip)
          else
            .ok (data, .uncompressed)

/-- Concrete model of a compressor for instantiations: prepends the two
gzip magic bytes. -/
def gzipModelCompress : Blob → Except Err Blob :=
  fun b => .ok (31 :: 139 :: b)

/-- Concrete model of a gzip decompressor for instantiations: strips the
two magic bytes and fails on any blob that does not start with them,
the way GzDecoder fails on data that is not valid gzip. -/
def gzipModelDecompress : Blob → Except Err Blob := fun b =>
  match b with
  | 31 :: 139 :: rest => .ok rest
  | _ => .error (Err.message ("invalid gzip data"))

/-- Concrete model of a brotli compressor for instantiations. -/
def brotliModelCompress : Blob → Except Err Blob :=
  fun b => .ok (11 :: b)

/-- Concrete model of a brotli decompressor for instantiations, failing
on blobs its compressor did not produce. -/
def brotliModelDecompress : Blob → Except Err Blob := fun b =>
  match b with
  | 11 :: rest => .ok rest
  | _ => .error (Err.message ("invalid brotli data"))

/-- ByteRange: an (offset, length) pair of file positions. -/
structure ByteRange where
  offset : Nat
  length : Nat
deriving DecidableEq

/-- TileCoord2: a tile position without zoom. -/
structure TileCoord2 where
  x : Nat
  y : Nat
deriving DecidableEq

/-- TileCoord3: a tile position with zoom level z. -/
structure TileCoord3 where
  z : Nat
  x : Nat
  y : Nat
deriving DecidableEq, BEq

/-- Modelled from the spec: TileCoord3 construction (the defining module
is not among the sources); fails with CoordOutOfRange when x or y is not
below 2^z. Argument order (x, y, z) follows the call sites. -/
def TileCoord3.new (x y z : Nat) : Except Err TileCoord3 :=
  if x < 2 ^ z ∧ y < 2 ^ z then .ok ⟨z, x, y⟩ else .error Err.coordOutOfRange

/-- Drop the zoom level of a coordinate. -/
def TileCoord3.as_coord2 (c : TileCoord3) : TileCoord2 := ⟨c.x, c.y⟩

/-- Modelled from the spec: TileBBox, an inclusive rectangle of tile
coordinates at one zoom level; empty iff a minimum exceeds its maximum. -/
structure TileBBox where
  level : Nat
  x_min : Nat
  y_min : Nat
  x_max : Nat
  y_max : Nat
deriving DecidableEq

/-- Modelled from the spec: point containment test of TileBBox. -/
def TileBBox.contains (b : TileBBox) (c : TileCoord2) : Bool :=
  decide (b.x_min ≤ c.x) && decide (c.x ≤ b.x_max) &&
  decide (b.y_min ≤ c.y) && decide (c.y ≤ b.y_max)

/-- Modelled from the spec: TileCoord3 containment also checks the level. -/
def TileBBox.contains3 (b : TileBBox) (c : TileCoord3) : Bool :=
  b.contains ⟨c.x, c.y⟩ && decide (c.z = b.level)

/-- Modelled from the spec: row-major index of a contained coordinate
within the box. -/
def TileBBox.get_tile_index (b : TileBBox) (c : TileCoord2) : Nat :=
  (c.y - b.y_min) * (b.x_max + 1 - b.x_min) + (c.x - b.x_min)

/-- Modelled from the spec: the coordinate at a row-major index within
the box; fails when the index is outside the box. -/
def TileBBox.get_coord3_by_index (b : TileBBox) (i : Nat) : Except Err TileCoord3 :=
  let w := b.x_max + 1 - b.x_min
  if i < w * (b.y_max + 1 - b.y_min) then
    .ok ⟨b.level, b.x_min + i % w, b.y_min + i / w⟩
  else
    .error (Err.message ("index out of bounds"))

/-- Modelled from the spec: all coordinates of the box in row-major
order; empty when a minimum exceeds its maximum. -/
def TileBBox.iter_coords (b : TileBBox) : List TileCoord3 :=
  if b.x_min ≤ b.x_max ∧ b.y_min ≤ b.y_max then
    (List.range (b.y_max + 1 - b.y_min)).flatMap fun dy =>
      (List.range (b.x_max + 1 - b.x_min)).map fun dx =>
        ⟨b.level, b.x_min + dx, b.y_min + dy⟩
  else []

/-- Modelled from the spec: coarsen all bounds by a factor. -/
def TileBBox.scale_down (b : TileBBox) (f : Nat) : TileBBox :=
  ⟨b.level, b.x_min / f, b.y_min / f, b.x_max / f, b.y_max / f⟩

/-- Modelled from the spec: intersection (minimum covering) of two boxes
at the same level. -/
def TileBBox.intersect_bbox (b o : TileBBox) : TileBBox :=
  ⟨b.level, max b.x_min o.x_min, max b.y_min o.y_min,
    min b.x_max o.x_max, min b.y_max o.y_max⟩

/-- Modelled from the spec: number of tiles covered by the box. -/
def TileBBox.count_tiles (b : TileBBox) : Nat :=
  (b.x_max + 1 - b.x_min) * (b.y_max + 1 - b.y_min)

/-- Modelled from the spec: BlockDefinition, the per-block record of the
block index: its coordinate (z, block_x, block_y), the bbox of populated
tiles local to its 256 by 256 grid, and the byte ranges of its tile
payloads and of its compressed tile index. -/
structure BlockDefinition where
  coord : TileCoord3
  local_bbox : TileBBox
  tiles_range : ByteRange
  index_range : ByteRange
deriving DecidableEq

/-- Modelled from the spec: the block bbox in global tile coordinates,
the local bbox offset by 256 times the block coordinate, at level z. -/
def BlockDefinition.get_global_bbox (d : BlockDefinition) : TileBBox :=
  ⟨d.coord.z,
    d.coord.x * 256 + d.local_bbox.x_min, d.coord.y * 256 + d.local_bbox.y_min,
    d.coord.x * 256 + d.local_bbox.x_max, d.coord.y * 256 + d.local_bbox.y_max⟩

/-- Modelled from the spec: the number of tiles of the block. -/
def BlockDefinition.count_tiles (d : BlockDefinition) : Nat :=
  d.local_bbox.count_tiles

/-- Modelled from the spec: BlockIndex point lookup, the index as an
association list keyed by block coordinate. -/
def getBlock (idx : List (TileCoord3 × BlockDefinition)) (c : TileCoord3) :
    Option BlockDefinition :=
  (idx.find? fun p => p.1 == c).map (·.2)

/-- Modelled from the spec: TileIndex.add_offset rebases every non-empty
entry by the given base; length-0 entries stay absent markers. -/
def addOffset (ti : List ByteRange) (base : Nat) : List ByteRange :=
  ti.map fun r => if r.length = 0 then r else ⟨r.offset + base, r.length⟩

/-- DataReader.read_range: an exact-length read out of the underlying
byte sequence; a short read is an IO error. -/
def readRange (file : List Nat) (r : ByteRange) : Except Err Blob :=
  if r.offset + r.length ≤ file.length then
    .ok ((file.drop r.offset).take r.length)
  else
    .error (Err.io ("short read"))

/-- State of a VersaTilesReader, reduced to the parts the claims touch:
the underlying file bytes, the in-memory BlockIndex, and the parser that
stands for the missing TileIndex.from_brotli_blob (brotli decoding is an
external collaborator; the parser is an arbitrary function supplied by
the state). The TileIndex cache of the source is not modelled: per the
spec, cache get and add return the inserted value unchanged, so the
cacheless computation has the same observable results. -/
structure VersaTilesReader where
  file : List Nat
  block_index : List (TileCoord3 × BlockDefinition)
  parse_tile_index : Blob → Except Err (List ByteRange)

/-- get_block_tile_index from reader.rs lines 74-93, without the cache:
read the index range, parse it, rebase by the tiles range offset, and
assert that the length equals the block tile count. -/
def getBlockTileIndex (s : VersaTilesReader) (block : BlockDefinition) :
    Except Err (List ByteRange) :=
  match readRange s.file block.index_range with
  | .error e => .error e
  | .ok blob =>
    match s.parse_tile_index blob with
    | .error e => .error e
    | .ok ti0 =>
      let ti := addOffset ti0 block.tiles_range.offset
      if ti.length = block.count_tiles then .ok ti
      else .error (Err.panicked ("assertion failed: tile index length"))

/-- get_tile_data from reader.rs lines 123-161: locate the block by the
coordinate shifted right by 8, return None when the block is absent or
the coordinate is outside the block bbox or the index entry is empty,
otherwise read the entry range. -/
def get_tile_data (s : VersaTilesReader) (coord : TileCoord3) :
    Except Err (Option Blob) :=
  match TileCoord3.new (coord.x >>> 8) (coord.y >>> 8) coord.z with
  | .error e => .error e
  | .ok block_coord =>
    match getBlock s.block_index block_coord with
    | none => .ok none
    | some block =>
      let bbox := block.get_global_bbox
      let tile_coord := coord.as_coord2
      if bbox.contains tile_coord then
        let tile_id := bbox.get_tile_index tile_coord
        match getBlockTileIndex s block with
        | .error e => .error e
        | .ok tile_index =>
          match tile_index[tile_id]? with
          | none => .error (Err.panicked ("index out of bounds"))
          | some tile_range =>
            if tile_range.length = 0 then .ok none
            else
              match readRange s.file tile_range with
              | .error e => .error e
              | .ok b => .ok (some b)
      else .ok none

/-- Upper bound on the byte span of one coalesced chunk read, 64 MiB. -/
def MAX_CHUNK_SIZE : Nat := 64 * 1024 * 1024

/-- Largest offset gap still read through rather than split, 32 KiB. -/
def MAX_CHUNK_GAP : Nat := 32 * 1024

/-- A chunk of the bbox stream: its tile entries and the combined byte
range read in one request. -/
structure Chunk where
  tiles : List (TileCoord3 × ByteRange)
  range : ByteRange
deriving DecidableEq

/-- Chunk construction at a start offset (reader.rs lines 173-178). -/
def Chunk.new (start : Nat) : Chunk := ⟨[], ⟨start, 0⟩⟩

/-- Chunk.push from reader.rs lines 179-188: panics when the entry starts
before the chunk, else appends it and extends the chunk length. -/
def Chunk.push (c : Chunk) (e : TileCoord3 × ByteRange) : Except Err Chunk :=
  if e.2.offset < c.range.offset then .error (Err.panicked ("explicit panic"))
  else
    .ok ⟨c.tiles ++ [e],
      ⟨c.range.offset, max c.range.length (e.2.offset + e.2.length - c.range.offset)⟩⟩

/-- The greedy packing loop of reader.rs lines 245-264: append the entry
to the current chunk while both the span and the gap stay under the
limits, else flush the current chunk and start a new one at the entry.
The pair returned is (the flushed chunks, the current chunk at loop end);
the source keeps only the flushed chunks. -/
def packLoop (chunk : Chunk) (acc : List Chunk) :
    List (TileCoord3 × ByteRange) → Except Err (List Chunk × Chunk)
  | [] => .ok (acc, chunk)
  | e :: rest =>
    let chunk_start := chunk.range.offset
    let chunk_end := chunk.range.offset + chunk.range.length
    let tile_start := e.2.offset
    let tile_end := e.2.offset + e.2.length
    if chunk_start + MAX_CHUNK_SIZE > tile_end ∧ chunk_end + MAX_CHUNK_GAP > tile_start then
      match chunk.push e with
      | .error err => .error err
      | .ok c2 => packLoop c2 acc rest
    else
      match (Chunk.new e.2.offset).push e with
      | .error err => .error err
      | .ok c2 => packLoop c2 (acc ++ [chunk]) rest

/-- Stable insertion of an entry into a list sorted by range offset. -/
def insertByOffset (e : TileCoord3 × ByteRange) :
    List (TileCoord3 × ByteRange) → List (TileCoord3 × ByteRange)
  | [] => [e]
  | x :: xs =>
    if e.2.offset ≤ x.2.offset then e :: x :: xs else x :: insertByOffset e xs

/-- Stable sort by range offset, modelling Vec.sort_by_key. -/
def sortByOffset : List (TileCoord3 × ByteRange) → List (TileCoord3 × ByteRange)
  | [] => []
  | x :: xs => insertByOffset x (sortByOffset xs)

/-- Short-circuiting traversal, modelling collect over Results. -/
def mapE {α β : Type} (f : α → Except Err β) : List α → Except Err (List β)
  | [] => .ok []
  | x :: xs =>
    match f x with
    | .error e => .error e
    | .ok y =>
      match mapE f xs with
      | .error e => .error e
      | .ok ys => .ok (y :: ys)

/-- get_bbox_tile_stream from reader.rs lines 163-304, with the stream
flattened into the list of items it yields: enumerate the block
coordinates of the bbox scaled down by 256 (panic when one is missing
from the block index), collect the non-empty in-bbox tile entries of
each block, sort them by offset and greedy-pack them into chunks, then
read each chunk in one request and slice it into per-tile blobs. -/
def get_bbox_tile_stream (s : VersaTilesReader) (bbox : TileBBox) :
    Except Err (List (TileCoord3 × Blob)) :=
  let block_coords := (bbox.scale_down 256).iter_coords
  match mapE (fun block_coord =>
    match getBlock s.block_index block_coord with
    | none => .error (Err.panicked ("block does not exist"))
    | some block =>
      let tiles_bbox_block := block.get_global_bbox
      let tiles_bbox_used := bbox.intersect_bbox tiles_bbox_block
      if bbox.level ≠ tiles_bbox_block.level then
        .error (Err.panicked ("assertion failed: level"))
      else if bbox.level ≠ tiles_bbox_used.level then
        .error (Err.panicked ("assertion failed: level"))
      else
        match getBlockTileIndex s block with
        | .error _ => .error (Err.panicked ("called unwrap on an Err value"))
        | .ok tile_index =>
          match mapE (fun p =>
              match tiles_bbox_block.get_coord3_by_index p.1 with
              | .ok c => .ok (c, p.2)
              | .error _ => .error (Err.panicked ("called unwrap on an Err value")))
            tile_index.enum with
          | .error e => .error e
          | .ok pairs =>
            let tile_ranges := pairs.filter fun e =>
              tiles_bbox_used.contains3 e.1 && decide (0 < e.2.length)
            match sortByOffset tile_ranges with
            | [] => .ok []
            | s0 :: srest =>
              match packLoop (Chunk.new s0.2.offset) [] (s0 :: srest) with
              | .error e => .error e
              | .ok (chunks, _last) => .ok chunks) block_coords with
  | .error e => .error e
  | .ok chunk_lists =>
    let chunks := chunk_lists.flatten
    match mapE (fun chunk =>
      match readRange s.file chunk.range with
      | .error _ => .error (Err.panicked ("called unwrap on an Err value"))
      | .ok big_blob =>
        mapE (fun e =>
          let start := e.2.offset - chunk.range.offset
          if start + e.2.length ≤ big_blob.length then
            if bbox.contains3 e.1 then
              .ok (e.1, (big_blob.drop start).take e.2.length)
            else .error (Err.panicked ("outer_bbox does not contain coord"))
          else .error (Err.panicked ("slice index out of range"))) chunk.tiles) chunks with
    | .error e => .error e
    | .ok tile_lists => .ok tile_lists.flatten

/-- True when get_tile_data succeeds with a non-None blob. -/
def tileDataNonEmpty (s : VersaTilesReader) (c : TileCoord3) : Bool :=
  match get_tile_data s c with
  | .ok (some _) => true
  | _ => false

/-- The full level-2 bbox of the spec seed case. -/
def level2BBox : TileBBox := ⟨2, 0, 0, 3, 3⟩

/-- The single level-2 block of the test container: all 16 tiles of the
level-2 grid, payloads at offsets 0..15 of one byte each, tile index
stored at range (16, 0). -/
def streamBugBlock : BlockDefinition :=
  ⟨⟨2, 0, 0⟩, ⟨2, 0, 0, 3, 3⟩, ⟨0, 16⟩, ⟨16, 0⟩⟩

/-- Model of the test container, restricted to level 2: 16 one-byte
tiles in one block, with a parser returning their 16 index entries. -/
def streamBugReader : VersaTilesReader :=
  ⟨List.range 16,
    [(⟨2, 0, 0⟩, streamBugBlock)],
    fun _ => .ok ((List.range 16).map fun i => ⟨i, 1⟩)⟩

/-- A container whose BlockIndex is empty: every block coordinate of any
bbox is missing. -/
def missingBlockReader : VersaTilesReader :=
  ⟨[], [], fun _ => .ok []⟩

/-- Split soundness between a flushed chunk and the first entry of the
next chunk, with the bounds the code enforces: packing the entry into
the flushed chunk would reach or exceed MAX_CHUNK_SIZE in span, or the
gap from the chunk end to the entry reaches or exceeds MAX_CHUNK_GAP. -/
def adjB (c c2 : Chunk) : Bool :=
  match c2.tiles.head? with
  | none => true
  | some e =>
    decide (c.range.offset + MAX_CHUNK_SIZE ≤ e.2.offset + e.2.length) ||
    decide (c.range.offset + c.range.length + MAX_CHUNK_GAP ≤ e.2.offset)

/-- adjB holds between every two consecutive chunks of the list. -/
def adjacentOk : List Chunk → Bool
  | c :: c2 :: rest => adjB c c2 && adjacentOk (c2 :: rest)
  | _ => true

/-- The strict split condition of claim C3 as literally stated: packing
the next entry in would strictly exceed MAX_CHUNK_SIZE in span, or the
gap strictly exceeds MAX_CHUNK_GAP. -/
def adjStrictB (c c2 : Chunk) : Bool :=
  match c2.tiles.head? with
  | none => true
  | some e =>
    decide (c.range.offset + MAX_CHUNK_SIZE < e.2.offset + e.2.length) ||
    decide (c.range.offset + c.range.length + MAX_CHUNK_GAP < e.2.offset)

/-- adjStrictB holds between every two consecutive chunks of the list. -/
def adjacentStrict : List Chunk → Bool
  | c :: c2 :: rest => adjStrictB c c2 && adjacentStrict (c2 :: rest)
  | _ => true

/-- Every chunk of the list spans at most MAX_CHUNK_SIZE bytes. -/
def spanLeMax (cs : List Chunk) : Bool :=
  cs.all fun c => decide (c.range.length ≤ MAX_CHUNK_SIZE)

/-- Claim C3 as literally stated, as a predicate on the entry list of
one block: every chunk formed by the greedy packing (the final one
included) spans at most MAX_CHUNK_SIZE, and consecutive entries land in
different chunks only under the strict split condition. -/
def packClaimAsStated (entries : List (TileCoord3 × ByteRange)) : Bool :=
  match entries with
  | [] => true
  | e0 :: _ =>
    match packLoop (Chunk.new e0.2.offset) [] entries with
    | .error _ => true
    | .ok (chunks, last) =>
      spanLeMax (chunks ++ [last]) && adjacentStrict (chunks ++ [last])

/-- Counterexample entries for C3: a first tile one byte larger than
MAX_CHUNK_SIZE, then two tiles whose gap equals MAX_CHUNK_GAP exactly. -/
def packCounterEntries : List (TileCoord3 × ByteRange) :=
  [(⟨0, 0, 0⟩, ⟨0, 67108865⟩),
   (⟨0, 0, 0⟩, ⟨67141633, 5⟩),
   (⟨0, 0, 0⟩, ⟨67174406, 5⟩)]

/-- GeoProperties: a feature property map, keys to values; values are
modelled by their string rendering, which is all the join uses. -/
structure GeoProperties where
  entries : List (String × String)
deriving DecidableEq

/-- Property lookup by key. -/
def GeoProperties.get (p : GeoProperties) (key : String) : Option String :=
  p.entries.lookup key

/-- Property removal by key. -/
def GeoProperties.remove (p : GeoProperties) (key : String) : GeoProperties :=
  ⟨p.entries.filter fun q => q.1 != key⟩

/-- TilesReaderParameters: coverage pyramid, tile compression and tile
format advertised by a reader or operation. -/
structure TilesReaderParameters where
  bbox_pyramid : List TileBBox
  tile_compression : TileCompression
  tile_format : TileFormat
deriving DecidableEq

/-- The declarative arguments of vectortiles_update_properties. -/
structure Args where
  data_source_path : String
  id_field_tiles : String
  id_field_data : String
  layer_name : Option String
  replace_properties : Bool
  remove_non_matching : Bool
  include_id : Bool
deriving DecidableEq

/-- The per-tile runner state of the transform. -/
structure Runner where
  args : Args
  tile_compression : TileCompression
  properties_map : List (String × GeoProperties)
deriving DecidableEq

/-- The constructed operation: runner, advertised parameters, meta. -/
structure Operation where
  runner : Runner
  parameters : TilesReaderParameters
  meta : Option Blob
deriving DecidableEq

/-- One row of the properties-map construction in Operation::build
(vectortiles_update_properties.rs lines 110-126): fail when the row
lacks the id_field_data key, else key the row by that value, stripping
the id field unless include_id is set. -/
def buildRowEntry (args : Args) (properties : GeoProperties) :
    Except Err (String × GeoProperties) :=
  match properties.get args.id_field_data with
  | none => .error (Err.missingCsvKey args.id_field_data)
  | some v =>
    let kept := if args.include_id then properties
      else properties.remove args.id_field_data
    .ok (v, kept)

/-- Operation::build of vectortiles_update_properties.rs lines 94-154:
turn the already-read CSV rows into the id-keyed properties map, failing
on any row that lacks the id_field_data key; require the child's tile
format to be PBF; keep the child's parameters but advertise
tile_compression Uncompressed, while the runner keeps the child's
compression for decompressing input tiles. -/
def Operation.build (rows : List GeoProperties) (args : Args)
    (src_parameters : TilesReaderParameters) (src_meta : Option Blob) :
    Except Err Operation :=
  match mapE (buildRowEntry args) rows with
  | .error e => .error e
  | .ok properties_map =>
    if src_parameters.tile_format = TileFormat.pbf then
      let runner : Runner := ⟨args, src_parameters.tile_compression, properties_map⟩
      .ok ⟨runner, { src_parameters with tile_compression := .uncompressed }, src_meta⟩
    else .error (Err.message ("source must be vector tiles"))

/-- Concrete arguments for the C9 witness. -/
def witnessArgs : Args :=
  ⟨"cities.csv", "tile_id", "city_id", none, false, false, false⟩

/-- Concrete CSV rows for the C9 witness. -/
def witnessRows : List GeoProperties :=
  [⟨[("city_id", "1"), ("city_name", "Berlin")]⟩]

/-- Concrete child parameters for the C9 witness. -/
def witnessSrcParameters : TilesReaderParameters :=
  ⟨[⟨0, 0, 0, 0, 0⟩], .gzip, .pbf⟩

end Versatiles

namespace Versatiles

/-- C4 helper statement: a successful negotiation returns a codec in the
acceptable set (membership part, all codec functions quantified). -/
theorem optimize_compression_mem
    (cg dg cb db : Blob → Except Err Blob) (blob : Blob) (input : TileCompression)
    (target : TargetCompression) (b : Blob) (c : TileCompression)
    (h : optimize_compression cg dg cb db blob input target = .ok (b, c)) :
    target.compressions.contains c = true := by
  obtain ⟨⟨u, g, r⟩, best⟩ := target
  cases u <;> cases g <;> cases r <;> cases best <;> cases input <;> cases c <;>
    (try simp_all [optimize_compression, CompressionSet.contains, CompressionSet.isEmpty]) <;>
    (repeat' split at h) <;>
    simp_all [CompressionSet.contains]

/-- Claim C4 as amended: for every blob, input compression and target,
if the acceptable codec set is empty then optimize_compression fails
with the "no compression allowed" error; otherwise, provided every codec
call involved succeeds, it succeeds; and whenever it succeeds the
returned codec is a member of the acceptable set. -/
theorem optimize_compression_negotiation_spec
    (cg dg cb db : Blob → Except Err Blob) (blob : Blob) (input : TileCompression)
    (target : TargetCompression) :
    (target.compressions.isEmpty = true →
      optimize_compression cg dg cb db blob input target =
        .error (Err.message ("no compression allowed")))
    ∧ (target.compressions.isEmpty = false →
      (∀ x, ∃ y, cg x = .ok y) → (∀ x, ∃ y, dg x = .ok y) →
      (∀ x, ∃ y, cb x = .ok y) → (∀ x, ∃ y, db x = .ok y) →
      ∃ out, optimize_compression cg dg cb db blob input target = .ok out ∧
        target.compressions.contains out.2 = true)
    ∧ (∀ out, optimize_compression cg dg cb db blob input target = .ok out →
      target.compressions.contains out.2 = true) := by
  refine ⟨?_, ?_, ?_⟩
  · intro h
    simp [optimize_compression, h]
  · intro h h1 h2 h3 h4
    obtain ⟨d1, hd1⟩ := h2 blob
    obtain ⟨c1, hc1⟩ := h3 blob
    obtain ⟨c2, hc2⟩ := h3 d1
    obtain ⟨g1, hg1⟩ := h1 blob
    obtain ⟨d2, hd2⟩ := h4 blob
    obtain ⟨g2, hg2⟩ := h1 d2
    obtain ⟨⟨u, g, r⟩, best⟩ := target
    cases u <;> cases g <;> cases r <;> cases best <;> cases input <;>
      simp_all [optimize_compression, CompressionSet.contains, CompressionSet.isEmpty]
  · intro out hout
    obtain ⟨b1, c1⟩ := out
    exact optimize_compression_mem cg dg cb db blob input target b1 c1 hout

/-- Counterexample to claim C4 as stated: with the modelled gzip codec,
a blob that is not valid gzip data, labelled Gzip, negotiated against
the non-empty target {Brotli}, makes optimize_compression return the
propagated codec error instead of succeeding. -/
theorem optimize_compression_success_claim_false :
    (⟨⟨false, false, true⟩, true⟩ : TargetCompression).compressions.isEmpty = false ∧
    optimize_compression gzipModelCompress gzipModelDecompress brotliModelCompress
      brotliModelDecompress [0] .gzip ⟨⟨false, false, true⟩, true⟩ =
      .error (Err.message ("invalid gzip data")) :=
  ⟨rfl, rfl⟩

/-- Witness for the amended C4: with total concrete codecs and target
set {Gzip} the negotiation of a concrete gzip blob succeeds and returns
an acceptable codec. -/
theorem optimize_compression_negotiation_spec_witness :
    (⟨⟨false, true, false⟩, false⟩ : TargetCompression).compressions.isEmpty = false ∧
    ∃ out, optimize_compression (fun x => .ok x) (fun x => .ok x) (fun x => .ok x)
        (fun x => .ok x) [1, 2, 3] .gzip ⟨⟨false, true, false⟩, false⟩ = .ok out ∧
      (⟨⟨false, true, false⟩, false⟩ : TargetCompression).compressions.contains out.2 = true :=
  ⟨rfl, (optimize_compression_negotiation_spec (fun x => .ok x) (fun x => .ok x)
      (fun x => .ok x) (fun x => .ok x) [1, 2, 3] .gzip
      ⟨⟨false, true, false⟩, false⟩).2.1 rfl
    (fun x => ⟨x, rfl⟩) (fun x => ⟨x, rfl⟩) (fun x => ⟨x, rfl⟩) (fun x => ⟨x, rfl⟩)⟩

/-- Claim C5: if best_compression is false and the input codec is a
member of the acceptable set, optimize_compression returns the blob and
codec completely unchanged. -/
theorem optimize_compression_no_best_acceptable_unchanged
    (cg dg cb db : Blob → Except Err Blob) (blob : Blob) (input : TileCompression)
    (target : TargetCompression)
    (h1 : target.best_compression = false)
    (h2 : target.compressions.contains input = true) :
    optimize_compression cg dg cb db blob input target = .ok (blob, input) := by
  obtain ⟨⟨u, g, r⟩, best⟩ := target
  cases u <;> cases g <;> cases r <;> cases best <;> cases input <;>
    simp_all [optimize_compression, CompressionSet.contains, CompressionSet.isEmpty]

/-- Witness for C5, the spec seed case: a Gzip blob with target
{Gzip, Brotli} and best_compression false is returned as-is. -/
theorem optimize_compression_no_best_acceptable_unchanged_witness :
    optimize_compression (fun x => .ok x) (fun x => .ok x) (fun x => .ok x)
      (fun x => .ok x) [9] .gzip ⟨⟨false, true, true⟩, false⟩ = .ok ([9], .gzip) :=
  optimize_compression_no_best_acceptable_unchanged (fun x => .ok x) (fun x => .ok x)
    (fun x => .ok x) (fun x => .ok x) [9] .gzip ⟨⟨false, true, true⟩, false⟩ rfl rfl

/-- Claim C6: optimize_compression is idempotent: feeding the blob and
codec of a successful run back in with the same target yields exactly the
same output. -/
theorem optimize_compression_idempotent
    (cg dg cb db : Blob → Except Err Blob) (blob : Blob) (input : TileCompression)
    (target : TargetCompression) (b : Blob) (c : TileCompression)
    (h : optimize_compression cg dg cb db blob input target = .ok (b, c)) :
    optimize_compression cg dg cb db b c target = .ok (b, c) := by
  obtain ⟨⟨u, g, r⟩, best⟩ := target
  cases u <;> cases g <;> cases r <;> cases best <;> cases input <;> cases c <;>
    (try simp_all [optimize_compression, CompressionSet.contains, CompressionSet.isEmpty]) <;>
    (repeat' split at h) <;>
    simp_all [optimize_compression, CompressionSet.contains, CompressionSet.isEmpty]

/-- Witness for C6: a concrete uncompressed blob negotiated to Brotli,
then negotiated again, is returned identically. -/
theorem optimize_compression_idempotent_witness :
    optimize_compression (fun x => .ok x) (fun x => .ok x) (fun x => .ok x)
      (fun x => .ok x) [1] .brotli ⟨⟨false, false, true⟩, true⟩ =
      .ok ([1], .brotli) :=
  optimize_compression_idempotent (fun x => .ok x) (fun x => .ok x) (fun x => .ok x)
    (fun x => .ok x) [1] .uncompressed ⟨⟨false, false, true⟩, true⟩ [1] .brotli rfl

/-- Claim C10: whenever optimize_compression succeeds and the returned
codec equals the input codec, the returned blob is byte-identical to the
input blob, also when best_compression is true. -/
theorem optimize_compression_same_codec_same_blob
    (cg dg cb db : Blob → Except Err Blob) (blob : Blob) (input : TileCompression)
    (target : TargetCompression) (b : Blob) (c : TileCompression)
    (h : optimize_compression cg dg cb db blob input target = .ok (b, c))
    (he : c = input) :
    b = blob := by
  subst he
  obtain ⟨⟨u, g, r⟩, best⟩ := target
  cases u <;> cases g <;> cases r <;> cases best <;> cases c <;>
    (try simp_all [optimize_compression, CompressionSet.contains, CompressionSet.isEmpty]) <;>
    (repeat' split at h) <;>
    simp_all [CompressionSet.contains]

/-- Witness for C10: a gzip blob negotiated with best_compression true
against target {Gzip} keeps the codec and therefore the exact bytes. -/
theorem optimize_compression_same_codec_same_blob_witness :
    optimize_compression (fun x => .ok x) (fun x => .ok x) (fun x => .ok x)
      (fun x => .ok x) [7] .gzip ⟨⟨false, true, false⟩, true⟩ =
      .ok ([7], .gzip) ∧ ([7] : Blob) = [7] :=
  ⟨rfl, optimize_compression_same_codec_same_blob (fun x => .ok x) (fun x => .ok x)
    (fun x => .ok x) (fun x => .ok x) [7] .gzip
    ⟨⟨false, true, false⟩, true⟩ [7] .gzip rfl rfl⟩

/-- A coordinate shifted right by eight bits stays below the same power
of two bound. -/
theorem shiftRight_lt_pow {x z : Nat} (h : x < 2 ^ z) : x >>> 8 < 2 ^ z :=
  Nat.lt_of_le_of_lt (by rw [Nat.shiftRight_eq_div_pow]; exact Nat.div_le_self x (2 ^ 8)) h

/-- Claim C2: for every coordinate at which the tile is simply absent,
the block is missing from the BlockIndex, or the coordinate lies outside
the block bbox, or the tile index entry has length 0, get_tile_data
returns success with None, never an error. -/
theorem get_tile_data_absent_gives_none (s : VersaTilesReader) (coord : TileCoord3)
    (hx : coord.x < 2 ^ coord.z) (hy : coord.y < 2 ^ coord.z) :
    (getBlock s.block_index ⟨coord.z, coord.x >>> 8, coord.y >>> 8⟩ = none →
      get_tile_data s coord = .ok none)
    ∧ (∀ block,
      getBlock s.block_index ⟨coord.z, coord.x >>> 8, coord.y >>> 8⟩ = some block →
      block.get_global_bbox.contains coord.as_coord2 = false →
      get_tile_data s coord = .ok none)
    ∧ (∀ block ti r,
      getBlock s.block_index ⟨coord.z, coord.x >>> 8, coord.y >>> 8⟩ = some block →
      block.get_global_bbox.contains coord.as_coord2 = true →
      getBlockTileIndex s block = .ok ti →
      ti[block.get_global_bbox.get_tile_index coord.as_coord2]? = some r →
      r.length = 0 →
      get_tile_data s coord = .ok none) := by
  have hnew : TileCoord3.new (coord.x >>> 8) (coord.y >>> 8) coord.z =
      .ok ⟨coord.z, coord.x >>> 8, coord.y >>> 8⟩ := by
    unfold TileCoord3.new
    rw [if_pos ⟨shiftRight_lt_pow hx, shiftRight_lt_pow hy⟩]
  refine ⟨?_, ?_, ?_⟩
  · intro h
    simp [get_tile_data, hnew, h]
  · intro block hb hc
    simp [get_tile_data, hnew, hb, hc]
  · intro block ti r hb hc hti hr hlen
    simp [get_tile_data, hnew, hb, hc, hti, hr, hlen]

/-- Witness for C2: on a container with an empty BlockIndex the block of
the origin coordinate is absent and get_tile_data returns Ok(None). -/
theorem get_tile_data_absent_gives_none_witness :
    get_tile_data missingBlockReader ⟨0, 0, 0⟩ = .ok none :=
  (get_tile_data_absent_gives_none missingBlockReader ⟨0, 0, 0⟩
    (by decide) (by decide)).1 (by rfl)

/-- Claim C1 is refuted by the code: the packing loop of
get_bbox_tile_stream never flushes its final chunk, so on the test
container model (16 one-byte level-2 tiles in one block, all packed into
a single chunk) the full level-2 bbox stream yields no tiles at all,
while get_tile_data returns a non-empty blob at all 16 coordinates of
that bbox. -/
theorem get_bbox_tile_stream_drops_final_chunk :
    get_bbox_tile_stream streamBugReader level2BBox = .ok []
    ∧ ((level2BBox.iter_coords).filter
        (fun c => tileDataNonEmpty streamBugReader c)).length = 16 := by
  constructor
  · rfl
  · decide

/-- Claim C8 is refuted by the code: when a block coordinate obtained by
scaling the bbox down by 256 is absent from the BlockIndex,
get_bbox_tile_stream panics ("block does not exist") instead of
returning a typed CorruptIndex error. -/
theorem get_bbox_tile_stream_missing_block_panics :
    get_bbox_tile_stream missingBlockReader level2BBox =
      .error (Err.panicked ("block does not exist")) := by
  rfl

/-- spanLeMax distributes over list append. -/
theorem spanLeMax_append (l1 l2 : List Chunk) :
    spanLeMax (l1 ++ l2) = (spanLeMax l1 && spanLeMax l2) := by
  simp [spanLeMax, List.all_append]

/-- adjB only looks at the head entry of the second chunk. -/
theorem adjB_congr {a b : Chunk} (c : Chunk) (h : a.tiles.head? = b.tiles.head?) :
    adjB c a = adjB c b := by
  unfold adjB
  rw [h]

/-- Replacing the final chunk by one with the same head entry preserves
the adjacency invariant. -/
theorem adjacentOk_congr_last :
    ∀ (l : List Chunk) (a b : Chunk), a.tiles.head? = b.tiles.head? →
      adjacentOk (l ++ [a]) = true → adjacentOk (l ++ [b]) = true := by
  intro l
  induction l with
  | nil =>
    intro a b _ _
    rfl
  | cons x xs ih =>
    intro a b h hadj
    cases xs with
    | nil =>
      simp only [List.cons_append, List.nil_append, adjacentOk, Bool.and_eq_true] at hadj ⊢
      refine ⟨?_, hadj.2⟩
      rw [← adjB_congr x h]
      exact hadj.1
    | cons y ys =>
      simp only [List.cons_append, adjacentOk, Bool.and_eq_true] at hadj ⊢
      exact ⟨hadj.1, ih a b h hadj.2⟩

/-- Appending a chunk that is adjB-compatible with the current final
chunk preserves the adjacency invariant. -/
theorem adjacentOk_snoc :
    ∀ (l : List Chunk) (a b : Chunk), adjacentOk (l ++ [a]) = true →
      adjB a b = true → adjacentOk ((l ++ [a]) ++ [b]) = true := by
  intro l
  induction l with
  | nil =>
    intro a b _ h2
    simp [adjacentOk, h2]
  | cons x xs ih =>
    intro a b h1 h2
    cases xs with
    | nil =>
      simp only [List.cons_append, List.nil_append, adjacentOk, Bool.and_eq_true] at h1 ⊢
      exact ⟨h1.1, h2, trivial⟩
    | cons y ys =>
      simp only [List.cons_append, adjacentOk, Bool.and_eq_true] at h1 ⊢
      exact ⟨h1.1, ih a b h1.2 h2⟩

/-- Invariant of the greedy packing loop: when every remaining entry is
at most MAX_CHUNK_SIZE long, the current chunk span is within bounds,
all accumulated chunks are within bounds and adjacency holds up to the
current chunk, then the final chunk list (the dangling chunk included)
is within the span bound and satisfies adjacency. -/
theorem packLoop_invariant (entries : List (TileCoord3 × ByteRange)) :
    ∀ (chunk : Chunk) (acc chunks : List Chunk) (last : Chunk),
    packLoop chunk acc entries = .ok (chunks, last) →
    (∀ e ∈ entries, e.2.length ≤ MAX_CHUNK_SIZE) →
    chunk.range.length ≤ MAX_CHUNK_SIZE →
    spanLeMax acc = true →
    adjacentOk (acc ++ [chunk]) = true →
    (acc = [] ∨ chunk.tiles ≠ []) →
    spanLeMax (chunks ++ [last]) = true ∧ adjacentOk (chunks ++ [last]) = true := by
  induction entries with
  | nil =>
    intro chunk acc chunks last hrun hlen hchunk hacc hadj _hne
    simp only [packLoop, Except.ok.injEq, Prod.mk.injEq] at hrun
    obtain ⟨rfl, rfl⟩ := hrun
    refine ⟨?_, hadj⟩
    rw [spanLeMax_append, hacc]
    simpa [spanLeMax] using hchunk
  | cons e rest ih =>
    intro chunk acc chunks last hrun hlen hchunk hacc hadj hne
    rw [packLoop] at hrun
    split at hrun
    next hcond =>
      rw [Chunk.push] at hrun
      split at hrun
      next err herr => simp at hrun
      next c2 hge =>
        split at hge
        next hlt => simp at hge
        next hge2 =>
          injection hge with hc2
          subst hc2
          refine ih _ acc chunks last hrun
            (fun e' he' => hlen e' (List.mem_cons_of_mem _ he')) ?_ hacc ?_ ?_
          · refine max_le hchunk ?_
            have h1 := hcond.1
            omega
          · rcases hne with rfl | hne
            · rfl
            · refine adjacentOk_congr_last acc chunk _ ?_ hadj
              obtain ⟨t, ts, hts⟩ := List.exists_cons_of_ne_nil hne
              simp [hts]
          · right
            simp
    next hcond =>
      rw [Chunk.push] at hrun
      split at hrun
      next err herr => simp at hrun
      next c2 hge =>
        split at hge
        next hlt => exact absurd hlt (lt_irrefl _)
        next hge2 =>
          injection hge with hc2
          subst hc2
          refine ih _ (acc ++ [chunk]) chunks last hrun
            (fun e' he' => hlen e' (List.mem_cons_of_mem _ he')) ?_ ?_ ?_ ?_
          · have hl := hlen e (List.mem_cons_self e rest)
            simp only [Chunk.new]
            omega
          · rw [spanLeMax_append, hacc]
            simpa [spanLeMax] using hchunk
          · refine adjacentOk_snoc acc chunk _ hadj ?_
            simp only [adjB, Chunk.new, List.nil_append, List.head?_cons,
              Bool.or_eq_true, decide_eq_true_eq]
            omega
          · right
            simp [Chunk.new]

/-- Claim C3 as amended: provided every entry of a block is at most
MAX_CHUNK_SIZE bytes long, every chunk formed by the greedy packing (the
final dangling chunk included) spans at most MAX_CHUNK_SIZE bytes, and
whenever two consecutive sorted entries are placed in different chunks,
either packing them together would reach or exceed MAX_CHUNK_SIZE in
span, or the gap from the chunk's current end to the next entry's offset
reaches or exceeds MAX_CHUNK_GAP. -/
theorem packLoop_span_and_split_bounds
    (e0 : TileCoord3 × ByteRange) (rest : List (TileCoord3 × ByteRange))
    (chunks : List Chunk) (last : Chunk)
    (hlen : ∀ e ∈ e0 :: rest, e.2.length ≤ MAX_CHUNK_SIZE)
    (hrun : packLoop (Chunk.new e0.2.offset) [] (e0 :: rest) = .ok (chunks, last)) :
    spanLeMax (chunks ++ [last]) = true ∧ adjacentOk (chunks ++ [last]) = true :=
  packLoop_invariant (e0 :: rest) (Chunk.new e0.2.offset) [] chunks last hrun hlen
    (Nat.zero_le _) rfl rfl (Or.inl rfl)

/-- Counterexample to claim C3 as literally stated: on packCounterEntries
the greedy packing produces a chunk whose span strictly exceeds
MAX_CHUNK_SIZE (a single tile of MAX_CHUNK_SIZE + 1 bytes), and splits
two consecutive entries whose gap equals MAX_CHUNK_GAP exactly, where
neither strict condition of the claim holds. -/
theorem packClaimAsStated_false : packClaimAsStated packCounterEntries = false := by
  decide

/-- Witness for the amended C3 on two concrete far-apart entries. -/
theorem packLoop_span_and_split_bounds_witness :
    spanLeMax ([⟨[(⟨0, 0, 0⟩, ⟨0, 5⟩)], ⟨0, 5⟩⟩] ++
        [⟨[(⟨0, 0, 0⟩, ⟨100000, 7⟩)], ⟨100000, 7⟩⟩]) = true ∧
    adjacentOk ([⟨[(⟨0, 0, 0⟩, ⟨0, 5⟩)], ⟨0, 5⟩⟩] ++
        [⟨[(⟨0, 0, 0⟩, ⟨100000, 7⟩)], ⟨100000, 7⟩⟩]) = true :=
  packLoop_span_and_split_bounds (⟨0, 0, 0⟩, ⟨0, 5⟩) [(⟨0, 0, 0⟩, ⟨100000, 7⟩)]
    [⟨[(⟨0, 0, 0⟩, ⟨0, 5⟩)], ⟨0, 5⟩⟩] ⟨[(⟨0, 0, 0⟩, ⟨100000, 7⟩)], ⟨100000, 7⟩⟩
    (by intro e he; simp at he; rcases he with rfl | rfl <;> decide) (by rfl)

/-- A short-circuiting traversal fails whenever any list element fails. -/
theorem mapE_error_of_mem {α β : Type} (f : α → Except Err β) :
    ∀ (l : List α) (a : α), a ∈ l → (∃ e, f a = .error e) →
      ∃ e, mapE f l = .error e := by
  intro l
  induction l with
  | nil =>
    intro a ha _
    exact absurd ha (List.not_mem_nil a)
  | cons x xs ih =>
    intro a ha hex
    obtain ⟨e, hfa⟩ := hex
    rcases List.mem_cons.mp ha with rfl | hmem
    · exact ⟨e, by simp [mapE, hfa]⟩
    · cases hfx : f x with
      | error e2 => exact ⟨e2, by simp [mapE, hfx]⟩
      | ok y =>
        obtain ⟨e2, hrec⟩ := ih a hmem ⟨e, hfa⟩
        exact ⟨e2, by simp [mapE, hfx, hrec]⟩

/-- Claim C9: construction of vectortiles_update_properties fails when
any CSV row lacks the id_field_data column, fails when the child's tile
format is not PBF, and on success advertises exactly the child's
parameters with tile_compression set to Uncompressed. -/
theorem vectortiles_update_properties_build_spec
    (rows : List GeoProperties) (args : Args)
    (src_parameters : TilesReaderParameters) (src_meta : Option Blob) :
    ((∃ row ∈ rows, row.get args.id_field_data = none) →
      ∃ e, Operation.build rows args src_parameters src_meta = .error e)
    ∧ (src_parameters.tile_format ≠ TileFormat.pbf →
      ∃ e, Operation.build rows args src_parameters src_meta = .error e)
    ∧ (∀ op, Operation.build rows args src_parameters src_meta = .ok op →
      op.parameters = { src_parameters with tile_compression := .uncompressed }) := by
  refine ⟨?_, ?_, ?_⟩
  · rintro ⟨row, hmem, hget⟩
    have hrow : buildRowEntry args row = .error (Err.missingCsvKey args.id_field_data) := by
      simp [buildRowEntry, hget]
    obtain ⟨e, hmap⟩ := mapE_error_of_mem (buildRowEntry args) rows row hmem ⟨_, hrow⟩
    exact ⟨e, by simp [Operation.build, hmap]⟩
  · intro hfmt
    cases hmap : mapE (buildRowEntry args) rows with
    | error e => exact ⟨e, by simp [Operation.build, hmap]⟩
    | ok pm =>
      exact ⟨Err.message ("source must be vector tiles"),
        by simp [Operation.build, hmap, hfmt]⟩
  · intro op hop
    unfold Operation.build at hop
    split at hop
    next => simp at hop
    next pm hmap =>
      split at hop
      next hfmt =>
        injection hop with h
        subst h
        rfl
      next => simp at hop

/-- Witness for C9: one CSV row keyed by city_id builds successfully and
the resulting parameters equal the child's with compression reset. -/
theorem vectortiles_update_properties_build_spec_witness :
    Operation.build witnessRows witnessArgs witnessSrcParameters none =
      .ok ⟨⟨witnessArgs, .gzip, [("1", ⟨[("city_name", "Berlin")]⟩)]⟩,
        ⟨[⟨0, 0, 0, 0, 0⟩], .uncompressed, .pbf⟩, none⟩ ∧
    (⟨⟨witnessArgs, .gzip, [("1", ⟨[("city_name", "Berlin")]⟩)]⟩,
        ⟨[⟨0, 0, 0, 0, 0⟩], .uncompressed, .pbf⟩, none⟩ : Operation).parameters =
      { witnessSrcParameters with tile_compression := .uncompressed } :=
  ⟨rfl, (vectortiles_update_properties_build_spec witnessRows witnessArgs
    witnessSrcParameters none).2.2 _ rfl⟩

end Versatiles
